import Mathlib

/-!
Shallow embedding of the synchronization core of the notion-obsidian-sync
repository, together with proofs checking the natural-language specification
against it.  The embedding covers:

* `src/utils/file_manager.py` — filename conflict resolution
  (`resolve_filename_conflicts`, `_get_unique_filename`), conflict counting
  (`check_file_conflicts`) and the batch-write pipeline (`safe_batch_write`);
* `src/models/markdown.py` — `MarkdownFile.sanitize_filename` and
  `MarkdownFile._is_safe_filename`;
* `src/services/cache_manager.py` — `CacheManager.is_page_changed`;
* `src/services/concurrent_processor.py` — `RateLimiter.acquire`,
  `RateLimiter.get_wait_time`, the three page-processing drivers and the
  aggregate statistics;
* `src/services/sync_orchestrator.py` — `SyncResult` and
  `SyncOrchestrator.sync_all_pages` / `_process_page_batch`.

Strings manipulated character-by-character by the source (filenames, titles)
are modelled as `List Char`; opaque identifiers and messages are `String`.
Python floats that carry time and token counts are modelled as rationals.
Filesystem and network outcomes are abstracted as explicit oracles passed in
as function parameters.  Python `while` loops are embedded with an explicit
fuel parameter that provably suffices.
-/

/-! ## Filenames and decimal counters -/

/-- Filenames are manipulated character-by-character by the source. -/
abbrev Filename := List Char

/-- The decimal digit character for `d` (code point 48 is the character 0),
as produced by Python string formatting of `counter` in
`_get_unique_filename`. -/
def decDigitChar (d : Nat) : Char := Char.ofNat (48 + d)

/-- Little-endian decimal digit characters of `n`, with an explicit fuel for
the division loop; `fuel ≥ n` suffices. -/
def natDecAux : Nat → Nat → List Char
  | 0, _ => []
  | _ + 1, 0 => []
  | fuel + 1, n + 1 => decDigitChar ((n + 1) % 10) :: natDecAux fuel ((n + 1) / 10)

/-- Decimal rendering of a natural number, as Python `str(counter)`. -/
def natDec (n : Nat) : List Char := if n = 0 then ['0'] else (natDecAux n n).reverse

/-- Index of the last occurrence of a dot in a filename (Python
`name.rfind('.')` inside `pathlib`), or `none`. -/
def rfindDotIdx : List Char → Option Nat
  | [] => none
  | c :: rest =>
    match rfindDotIdx rest with
    | some i => some (i + 1)
    | none => if c = '.' then some 0 else none

/-- Python `pathlib.PurePath.stem` on a bare filename: the part before the
last dot, except when that dot is the leading or trailing character. -/
def fileStem (s : List Char) : List Char :=
  match rfindDotIdx s with
  | some i => if 0 < i ∧ i < s.length - 1 then s.take i else s
  | none => s

/-- Python `pathlib.PurePath.suffix` on a bare filename: the extension from
the last dot on, or empty when the dot is leading or trailing. -/
def fileSuffix (s : List Char) : List Char :=
  match rfindDotIdx s with
  | some i => if 0 < i ∧ i < s.length - 1 then s.drop i else []
  | none => []

/-- The candidate name built by `_get_unique_filename`:
Python `f"{stem}_{counter}{suffix}"`. -/
def numberedName (st su : Filename) (k : Nat) : Filename :=
  st ++ '_' :: (natDec k ++ su)

/-- The `while` loop of `_get_unique_filename`: try counters `c`, `c+1`, …
until the candidate name is unused.  The loop is embedded with fuel; fuel
`used.length + 1` provably suffices (see `searchFrom_notMem`). -/
def searchFrom (used : List Filename) (st su : Filename) : Nat → Nat → Filename
  | 0, c => numberedName st su c
  | fuel + 1, c =>
    if numberedName st su c ∈ used then searchFrom used st su fuel (c + 1)
    else numberedName st su c

/-- `FileManager._get_unique_filename`: return the filename unchanged when it
is not yet used, otherwise append `_1`, `_2`, … before the extension until
the name is unused. -/
def getUniqueFilename (filename : Filename) (used : List Filename) : Filename :=
  if filename ∉ used then filename
  else searchFrom used (fileStem filename) (fileSuffix filename) (used.length + 1) 1

/-- The part of `models.markdown.MarkdownFile` that conflict resolution
manipulates: a filename plus the rest of the document, carried along
unchanged by `clone()`. -/
structure MdFile where
  filename : Filename
  content : List Char
deriving DecidableEq

/-- The loop body of `FileManager.resolve_filename_conflicts`: resolve each
file against the set of already-assigned names, accumulating that set. -/
def resolveAux : List MdFile → List Filename → List MdFile
  | [], _ => []
  | f :: rest, used =>
    let r := getUniqueFilename f.filename used
    { f with filename := r } :: resolveAux rest (r :: used)

/-- `FileManager.resolve_filename_conflicts`. -/
def resolveFilenameConflicts (files : List MdFile) : List MdFile :=
  resolveAux files []

/-- Case folding used by `check_file_conflicts` (Python `str.lower()`,
modelled per character). -/
def lowerName (f : Filename) : Filename := f.map Char.toLower

/-- Number of entries of the conflict dictionary built by
`FileManager.check_file_conflicts`: one entry per case-folded name occurring
at least twice in the batch, plus one `existing_…` entry per distinct batch
filename that equals a pre-existing file. -/
def conflictsCount (files : List Filename) (existing : List Filename) : Nat :=
  ((files.map lowerName).dedup.filter
    (fun k => 2 ≤ (files.map lowerName).count k)).length
  + (files.dedup.filter (fun f => f ∈ existing)).length

/-! ## MarkdownFile.sanitize_filename and _is_safe_filename -/

/-- Python `str.replace(a, b)` for single characters. -/
def replace1 (a b : Char) (s : List Char) : List Char :=
  s.map fun c => if c = a then b else c

/-- The chain of replacements of `MarkdownFile.sanitize_filename`, applied in
source order.  Note the source maps the double quote to itself. -/
def replaceDangerousChars (s : List Char) : List Char :=
  replace1 '/' '／' (replace1 '\\' '￥' (replace1 '*' '＊' (replace1 '?' '？'
    (replace1 '|' '｜' (replace1 '"' '"' (replace1 ':' '：' (replace1 '>' '＞'
      (replace1 '<' '＜' s))))))))

/-- Whitespace recognised by the `\s` character class and `str.strip()`
(the ASCII cases; other Unicode whitespace is not modelled). -/
def isSpaceChar (c : Char) : Bool :=
  c = ' ' || c = '\t' || c = '\n' || c = '\r' || c = '\x0b' || c = '\x0c'

/-- Python `re.sub(r"\s+", " ", s)`: collapse each maximal whitespace run to
a single space.  The boolean tracks whether the previous character was
whitespace. -/
def collapseAux : Bool → List Char → List Char
  | _, [] => []
  | prev, c :: rest =>
    if isSpaceChar c then
      if prev then collapseAux true rest else ' ' :: collapseAux true rest
    else c :: collapseAux false rest

/-- Collapse whitespace runs, starting outside a run. -/
def collapseWs (s : List Char) : List Char := collapseAux false s

/-- Python `str.rstrip()` with no argument: drop trailing whitespace. -/
def rstripWs (s : List Char) : List Char :=
  (s.reverse.dropWhile isSpaceChar).reverse

/-- Python `str.strip()` with no argument. -/
def stripWs (s : List Char) : List Char := rstripWs (s.dropWhile isSpaceChar)

/-- Python `str.rstrip('.')`. -/
def rstripDots (s : List Char) : List Char :=
  (s.reverse.dropWhile (fun c => c = '.')).reverse

/-- `MarkdownFile.sanitize_filename` from `src/models/markdown.py`. -/
def sanitizeFilename (title : List Char) (maxLen : Nat) : List Char :=
  if title = [] then "無題".toList
  else
    let s1 := replaceDangerousChars title
    let s2 := replace1 '\r' ' ' (replace1 '\n' ' ' s1)
    let s3 := stripWs (collapseWs s2)
    let s4 := if maxLen < s3.length then rstripWs (s3.take maxLen) else s3
    let s5 := rstripDots s4
    if s5 = [] then "無題".toList else s5

/-- `FileManager.get_safe_filename` delegates to `sanitize_filename` with the
default maximum length of 100. -/
def getSafeFilename (title : List Char) : List Char := sanitizeFilename title 100

/-- The dangerous characters of `MarkdownFile._is_safe_filename`. -/
def dangerousChars : List Char := ['<', '>', ':', '"', '|', '?', '*', '\\', '/']

/-- The reserved Windows device names of `MarkdownFile._is_safe_filename`. -/
def reservedNames : List (List Char) :=
  ["CON", "PRN", "AUX", "NUL",
   "COM1", "COM2", "COM3", "COM4", "COM5", "COM6", "COM7", "COM8", "COM9",
   "LPT1", "LPT2", "LPT3", "LPT4", "LPT5", "LPT6", "LPT7", "LPT8",
   "LPT9"].map String.toList

/-- `MarkdownFile._is_safe_filename` from `src/models/markdown.py`. -/
def isSafeFilename (filename : List Char) : Bool :=
  if filename.any (fun c => c ∈ dangerousChars) then false
  else if (fileStem filename).map Char.toUpper ∈ reservedNames then false
  else if stripWs filename = [] then false
  else true

/-! ## CacheManager (src/services/cache_manager.py) -/

/-- `PageCacheEntry` from `src/services/cache_manager.py`. -/
structure PageCacheEntry where
  page_id : String
  title : String
  last_edited_time : String
  content_hash : String
  file_path : String
  cached_at : String
  properties_hash : Option String
  block_count : Nat
deriving DecidableEq

/-- The in-memory cache dictionary, keyed by page id. -/
abbrev Cache := List (String × PageCacheEntry)

/-- Page properties (`Dict[str, Any]` in the source), modelled as key/value
pairs. -/
abbrev PropsDict := List (String × String)

/-- `CacheManager.get_page_cache`: dictionary lookup by page id. -/
def getPageCache (cache : Cache) (page_id : String) : Option PageCacheEntry :=
  cache.lookup page_id

/-- `CacheManager.is_page_changed`.  The two hash functions
(`_calculate_content_hash`, `_calculate_properties_hash`) wrap SHA-256 and
JSON canonicalisation and are passed in abstractly; every theorem below holds
for arbitrary hash functions, hence for the concrete digests. -/
def isPageChanged (hashC : String → String) (hashP : PropsDict → String)
    (cache : Cache) (page_id last_edited_time : String)
    (content : Option String) (properties : Option PropsDict) : Bool :=
  match getPageCache cache page_id with
  | none => true
  | some e =>
    if e.last_edited_time ≠ last_edited_time then true
    else if (match content with
             | some c => decide (e.content_hash ≠ hashC c)
             | none => false) then true
    else if (match properties with
             | some p => decide (e.properties_hash ≠ some (hashP p))
             | none => false) then true
    else false

/-! ## RateLimiter (src/services/concurrent_processor.py)

Wall-clock instants and token counts (Python floats) are modelled as
rationals.  `acquire` is modelled as a function of the state and the current
time `now`, returning the slept duration together with the successor state;
the Python method returns after that sleep with the mutations applied. -/

/-- The mutable state of `RateLimiter`. -/
structure RateLimiter where
  max_requests_per_second : ℚ
  burst_limit : ℚ
  tokens : ℚ
  last_update : ℚ
deriving DecidableEq

/-- `RateLimiter.__init__` at creation instant `now`. -/
def rateLimiterInit (rate burst now : ℚ) : RateLimiter :=
  { max_requests_per_second := rate, burst_limit := burst,
    tokens := burst, last_update := now }

/-- `RateLimiter.acquire` invoked at instant `now`: refill by elapsed time
times rate, capped at the burst limit; consume a token immediately when one
is available, otherwise sleep `(1 - tokens) / rate` seconds and leave zero
tokens.  Returns (slept duration, new state). -/
def acquire (s : RateLimiter) (now : ℚ) : ℚ × RateLimiter :=
  let refilled := min s.burst_limit
    (s.tokens + (now - s.last_update) * s.max_requests_per_second)
  if 1 ≤ refilled then
    (0, { s with tokens := refilled - 1, last_update := now })
  else
    ((1 - refilled) / s.max_requests_per_second,
     { s with tokens := 0, last_update := now })

/-- `RateLimiter.get_wait_time`: a read-only query computed from the stored
token count (without any refill). -/
def getWaitTime (s : RateLimiter) : ℚ :=
  if 1 ≤ s.tokens then 0
  else (1 - s.tokens) / s.max_requests_per_second

/-! ## ConcurrentProcessor (src/services/concurrent_processor.py)

The three drivers are embedded with a deterministic sequential semantics:
each per-item task runs atomically and results are listed in submission
order (the source collects them in completion order, which the aggregate
counts do not depend on).  A processor that raises is modelled as returning
`Except.error msg`; timing fields are not modelled. -/

/-- `ProcessingResult` (the `processing_time` field is wall-clock timing and
is not modelled). -/
structure ProcessingResult (α : Type) where
  page_id : String
  success : Bool
  result : Option α
  error : Option String
deriving DecidableEq

/-- A page dictionary as consumed by the drivers: an optional `id` entry plus
the rest of the payload. -/
structure PPage (β : Type) where
  idOpt : Option String
  data : β
deriving DecidableEq

/-- Python `page.get('id', 'unknown')`. -/
def pageIdOf (p : PPage β) : String := p.idOpt.getD "unknown"

/-- The per-page task body shared by `process_pages_async` and
`process_pages_threaded`: invoke the processor and capture success or the
exception message into a `ProcessingResult`. -/
def processSinglePage (proc : PPage β → Except String α) (p : PPage β) :
    ProcessingResult α :=
  match proc p with
  | .ok r => { page_id := pageIdOf p, success := true, result := some r, error := none }
  | .error e => { page_id := pageIdOf p, success := false, result := none, error := some e }

/-- `ConcurrentProcessor.process_pages_async` (results only; statistics are
updated by the `Run` wrapper below). -/
def processPagesAsync (proc : PPage β → Except String α) (pages : List (PPage β)) :
    List (ProcessingResult α) :=
  pages.map (processSinglePage proc)

/-- `ConcurrentProcessor.process_pages_threaded` (results only). -/
def processPagesThreaded (proc : PPage β → Except String α) (pages : List (PPage β)) :
    List (ProcessingResult α) :=
  pages.map (processSinglePage proc)

/-- Slicing a list into consecutive batches of `bs` elements
(Python `[xs[i:i + bs] for i in range(0, len(xs), bs)]`), with fuel bounding
the number of slices; `xs.length` suffices when `bs ≥ 1`. -/
def chunkListAux (bs : Nat) : Nat → List α → List (List α)
  | 0, _ => []
  | _ + 1, [] => []
  | fuel + 1, xs => xs.take bs :: chunkListAux bs fuel (xs.drop bs)

/-- Slice a list into batches of `bs` elements. -/
def chunkList (bs : Nat) (xs : List α) : List (List α) :=
  chunkListAux bs xs.length xs

/-- Conversion of one chunk outcome into per-page results inside
`process_pages_batch`: on success every page of the chunk is marked
successful (pages beyond the returned list get a `none` payload); on an
exception every page of the chunk is marked failed with the same message. -/
def batchToResults (batch : List (PPage β)) (out : Except String (List α)) :
    List (ProcessingResult α) :=
  match out with
  | .ok rs =>
    (batch.zip (List.range batch.length)).map fun ip =>
      { page_id := pageIdOf ip.1, success := true, result := rs[ip.2]?, error := none }
  | .error e =>
    batch.map fun p =>
      { page_id := pageIdOf p, success := false, result := none, error := some e }

/-- `ConcurrentProcessor.process_pages_batch` (results only). -/
def processPagesBatch (proc : List (PPage β) → Except String (List α))
    (batch_size : Nat) (pages : List (PPage β)) : List (ProcessingResult α) :=
  ((chunkList batch_size pages).map (fun b => batchToResults b (proc b))).flatten

/-- The `self.stats` dictionary of `ConcurrentProcessor`.  The counters are
modelled as integers so that their non-negativity is a statement about the
code rather than about the type. -/
structure PStats where
  total_processed : Int
  successful : Int
  failed : Int
  total_time : ℚ
  average_time : ℚ
deriving DecidableEq

/-- The statistics installed by `ConcurrentProcessor.__init__`. -/
def initPStats : PStats :=
  { total_processed := 0, successful := 0, failed := 0,
    total_time := 0, average_time := 0 }

/-- `ConcurrentProcessor._update_stats`. -/
def updatePStats (st : PStats) (results : List (ProcessingResult α))
    (elapsed : ℚ) : PStats :=
  let s : Int := results.countP (·.success)
  let f : Int := (results.length : Int) - s
  let st1 := { st with
    total_processed := st.total_processed + results.length,
    successful := st.successful + s,
    failed := st.failed + f,
    total_time := st.total_time + elapsed }
  if 0 < st1.total_processed then
    { st1 with average_time := st1.total_time / (st1.total_processed : ℚ) }
  else st1

/-- `ConcurrentProcessor.reset_stats`. -/
def resetPStats (_ : PStats) : PStats := initPStats

/-- `process_pages_async` together with its statistics update. -/
def processPagesAsyncRun (st : PStats) (proc : PPage β → Except String α)
    (pages : List (PPage β)) (elapsed : ℚ) :
    List (ProcessingResult α) × PStats :=
  let rs := processPagesAsync proc pages
  (rs, updatePStats st rs elapsed)

/-- `process_pages_threaded` together with its statistics update. -/
def processPagesThreadedRun (st : PStats) (proc : PPage β → Except String α)
    (pages : List (PPage β)) (elapsed : ℚ) :
    List (ProcessingResult α) × PStats :=
  let rs := processPagesThreaded proc pages
  (rs, updatePStats st rs elapsed)

/-- `process_pages_batch` together with its statistics update. -/
def processPagesBatchRun (st : PStats) (proc : List (PPage β) → Except String (List α))
    (batch_size : Nat) (pages : List (PPage β)) (elapsed : ℚ) :
    List (ProcessingResult α) × PStats :=
  let rs := processPagesBatch proc batch_size pages
  (rs, updatePStats st rs elapsed)

/-- The implicit invariant of the aggregate statistics. -/
def statsInv (st : PStats) : Prop :=
  st.successful + st.failed = st.total_processed ∧
  0 ≤ st.successful ∧ 0 ≤ st.failed ∧ 0 ≤ st.total_processed

/-! ## SyncOrchestrator (src/services/sync_orchestrator.py)

The collaborators are abstracted: the Notion fetch plus Markdown conversion
of one page (`notion_client.get_page_content` followed by
`data_processor.convert_page_to_markdown`, both inside one `try`) is a
function `convert : NPage → Except String ConvResult`; the outcome of
`write_markdown_file` on a resolved file is an oracle
`writeOk : Filename → Bool` absorbing the overwrite flag and the
filesystem; `validate_sync_prerequisites` (network and disk probes) is a
`Validation` value. -/

/-- A fetched Notion page as used by `sync_all_pages`. -/
structure NPage where
  id : String
  title : String
deriving DecidableEq

/-- `MarkdownConversionResult` as used by the orchestrator: the produced file
plus conversion warnings. -/
structure ConvResult where
  file : MdFile
  warnings : List String
deriving DecidableEq

/-- Result of `validate_sync_prerequisites`. -/
structure Validation where
  is_valid : Bool
  errors : List String
  warnings : List String

/-- `SyncResult` from `src/services/sync_orchestrator.py`; `completed`
records whether `complete()` has set `end_time`. -/
structure SyncResult where
  total_pages : Nat
  successful_pages : Nat
  failed_pages : Nat
  skipped_pages : Nat
  conversion_results : List ConvResult
  errors : List String
  warnings : List String
  completed : Bool
deriving DecidableEq

/-- `SyncResult.__init__`. -/
def initSyncResult : SyncResult :=
  { total_pages := 0, successful_pages := 0, failed_pages := 0,
    skipped_pages := 0, conversion_results := [], errors := [],
    warnings := [], completed := false }

/-- `SyncResult.add_error`. -/
def addError (r : SyncResult) (e : String) : SyncResult :=
  { r with errors := r.errors ++ [e] }

/-- `SyncResult.add_warning`. -/
def addWarning (r : SyncResult) (w : String) : SyncResult :=
  { r with warnings := r.warnings ++ [w] }

/-- A `for` loop calling `add_error` once per element. -/
def addErrors (r : SyncResult) (es : List String) : SyncResult :=
  { r with errors := r.errors ++ es }

/-- A `for` loop calling `add_warning` once per element. -/
def addWarnings (r : SyncResult) (ws : List String) : SyncResult :=
  { r with warnings := r.warnings ++ ws }

/-- `SyncResult.complete`. -/
def completeSync (r : SyncResult) : SyncResult := { r with completed := true }

/-- `SyncResult.success_rate` (a percentage). -/
def successRate (r : SyncResult) : ℚ :=
  if r.total_pages = 0 then 0
  else (r.successful_pages : ℚ) / (r.total_pages : ℚ) * 100

/-- Whether the combined fetch-and-convert step of one page raises. -/
def convFails (convert : NPage → Except String ConvResult) (p : NPage) : Bool :=
  match convert p with
  | .ok _ => false
  | .error _ => true

/-- `SyncOrchestrator._process_page_batch`: convert each page of the batch,
recording conversion warnings, and turn a raised exception into one recorded
error while continuing with the rest of the batch.  Returns the updated
`SyncResult` and the list of conversion results of the batch. -/
def processPageBatch (convert : NPage → Except String ConvResult) :
    List NPage → SyncResult → SyncResult × List ConvResult
  | [], r => (r, [])
  | p :: rest, r =>
    match convert p with
    | .ok c =>
      let r1 := addWarnings r (c.warnings.map (fun w => p.title ++ ": " ++ w))
      let rc := processPageBatch convert rest r1
      (rc.1, c :: rc.2)
    | .error e =>
      let r1 := addError r ("ページ処理エラー (" ++ p.title ++ "): " ++ e)
      processPageBatch convert rest r1

/-- The summary dictionary returned by `FileManager.safe_batch_write` (the
fields the orchestrator reads). -/
structure WriteStats where
  conflicts_detected : Nat
  successful_writes : Nat
  failed_writes : Nat
deriving DecidableEq

/-- `FileManager.safe_batch_write` with `resolve_conflicts=True` as invoked
by the orchestrator: count conflicts against the batch and the pre-existing
files, resolve filename conflicts when any were detected, then write every
file, counting successes and failures through the `writeOk` oracle.  The
source collects write outcomes in a dictionary keyed by filename; the
per-file counts used here coincide with it because the written filenames are
pairwise distinct whenever that dictionary is built (either the batch had no
duplicate names, or resolution just made them distinct). -/
def safeBatchWrite (writeOk : Filename → Bool) (convs : List ConvResult)
    (existing : List Filename) (resolve_conflicts : Bool) : WriteStats :=
  let files := convs.map (·.file)
  let nconf := conflictsCount (files.map (·.filename)) existing
  let outFiles :=
    if resolve_conflicts = true ∧ 0 < nconf then resolveFilenameConflicts files
    else files
  { conflicts_detected := nconf,
    successful_writes := (outFiles.filter (fun f => writeOk f.filename)).length,
    failed_writes := (outFiles.filter (fun f => !(writeOk f.filename))).length }

/-- One iteration of the batch loop of `sync_all_pages`: process the batch
against the running `SyncResult` and extend the accumulated conversion
results. -/
def syncBatchStep (convert : NPage → Except String ConvResult)
    (acc : SyncResult × List ConvResult) (batch : List NPage) :
    SyncResult × List ConvResult :=
  let rc := processPageBatch convert batch acc.1
  (rc.1, acc.2 ++ rc.2)

/-- The batch-processing and writing phase of `sync_all_pages`, starting
from the `SyncResult` left by validation (with `total_pages` already set):
process the pages in batches of `batch_size`, write the accumulated
conversion results through `safe_batch_write`, take the success/failure
counts from the write report, and `complete()`. -/
def syncRunBody (convert : NPage → Except String ConvResult)
    (writeOk : Filename → Bool) (batch_size : Nat) (existing : List Filename)
    (pages : List NPage) (r2 : SyncResult) : SyncResult :=
  let rc := (chunkList batch_size pages).foldl (syncBatchStep convert) (r2, [])
  let r3 := { rc.1 with conversion_results := rc.2 }
  let r4 :=
    if rc.2.length ≠ 0 then
      let w := safeBatchWrite writeOk rc.2 existing true
      let ra := { r3 with successful_pages := w.successful_writes,
                          failed_pages := w.failed_writes }
      if 0 < w.conflicts_detected then
        addWarning ra (toString w.conflicts_detected ++ "件のファイル名競合を解決しました")
      else ra
    else r3
  completeSync r4

/-- `SyncOrchestrator.sync_all_pages` for a run whose fetch succeeds and
returns `pages` (the surrounding `try` is then never triggered): abort on
failed validation, record validation warnings, then run the
batch-processing and writing phase; `complete()` is called on every path. -/
def syncAllPages (validation : Validation) (pages : List NPage)
    (convert : NPage → Except String ConvResult) (writeOk : Filename → Bool)
    (batch_size : Nat) (existing : List Filename) : SyncResult :=
  let r0 := initSyncResult
  if validation.is_valid = false then
    completeSync (addErrors r0 validation.errors)
  else
    let r1 := addWarnings r0 validation.warnings
    let r2 := { r1 with total_pages := pages.length }
    if pages.length = 0 then
      completeSync (addWarning r2 "同期対象のページが見つかりませんでした")
    else
      syncRunBody convert writeOk batch_size existing pages r2

/-- The relation between an input page and the `ProcessingResult` produced
for it by the async driver: the id is carried over, a successful processor
call yields a success record with the payload, and a raised exception yields
a failure record carrying the message. -/
def resultMatches (proc : PPage β → Except String α) (p : PPage β)
    (pr : ProcessingResult α) : Prop :=
  pr.page_id = pageIdOf p ∧
  match proc p with
  | .ok r => pr.success = true ∧ pr.result = some r ∧ pr.error = none
  | .error e => pr.success = false ∧ pr.error = some e ∧ pr.result = none

/-! ## Theorems -/

/-- Claim C2: `is_page_changed` returns true iff no cache entry exists for the
page id, or the given revision differs from the cached `last_edited_time`, or
the hash of the given content differs from the cached `content_hash`, or the
hash of the given properties differs from the cached `properties_hash`; in
every other case it returns false.  Proved for arbitrary hash functions,
hence for the concrete SHA-256 digests. -/
theorem claim_C2 (hashC : String → String) (hashP : PropsDict → String)
    (cache : Cache) (page_id rev c : String) (p : PropsDict) :
    isPageChanged hashC hashP cache page_id rev (some c) (some p) = true ↔
      getPageCache cache page_id = none ∨
      ∃ e, getPageCache cache page_id = some e ∧
        (rev ≠ e.last_edited_time ∨ hashC c ≠ e.content_hash ∨
         some (hashP p) ≠ e.properties_hash) := by
  cases h : getPageCache cache page_id with
  | none => simp [isPageChanged, h]
  | some e =>
    simp only [isPageChanged, h]
    by_cases h1 : e.last_edited_time = rev <;>
      by_cases h2 : e.content_hash = hashC c <;>
        by_cases h3 : e.properties_hash = some (hashP p) <;>
          simp [h1, h2, h3] <;> tauto

/-- Claim C5: `acquire` refills tokens by elapsed time times rate capped at
the burst capacity, consumes a token immediately when at least one is
available, and otherwise waits `(1 - tokens) / rate`; in particular for
`RateLimiter(rate=3, burst=3)` starting full, three consecutive `acquire()`
calls return without waiting and a fourth waits 1/3 second. -/
theorem claim_C5 :
    (∀ (s : RateLimiter) (now : ℚ),
      acquire s now =
        (if 1 ≤ min s.burst_limit
              (s.tokens + (now - s.last_update) * s.max_requests_per_second)
         then 0
         else (1 - min s.burst_limit
                (s.tokens + (now - s.last_update) * s.max_requests_per_second)) /
              s.max_requests_per_second,
         { s with
            tokens :=
              if 1 ≤ min s.burst_limit
                   (s.tokens + (now - s.last_update) * s.max_requests_per_second)
              then min s.burst_limit
                     (s.tokens + (now - s.last_update) * s.max_requests_per_second) - 1
              else 0,
            last_update := now })) ∧
    (∀ t : ℚ,
      (acquire (rateLimiterInit 3 3 t) t).1 = 0 ∧
      (acquire (acquire (rateLimiterInit 3 3 t) t).2 t).1 = 0 ∧
      (acquire (acquire (acquire (rateLimiterInit 3 3 t) t).2 t).2 t).1 = 0 ∧
      (acquire (acquire (acquire (acquire (rateLimiterInit 3 3 t) t).2 t).2 t).2 t).1
        = 1 / 3) := by
  constructor
  · intro s now
    unfold acquire
    split <;> simp_all
  · intro t
    norm_num [acquire, rateLimiterInit]

/-- Claim C6 counterexample: `get_wait_time` does not perform the refill that
`acquire` performs, so at a state with zero stored tokens, rate 3 and one
second elapsed since the last update, `acquire` would return without waiting
while `get_wait_time` reports a 1/3-second wait. -/
theorem claim_C6_counterexample :
    getWaitTime ⟨3, 10, 0, 0⟩ ≠ (acquire ⟨3, 10, 0, 0⟩ 1).1 := by
  norm_num [getWaitTime, acquire]

/-- Claim C6 (amended): `get_wait_time` computes the wait from the currently
stored token count without refilling, never blocks and never modifies the
state; it agrees with the wait `acquire` would incur only when no time has
elapsed since `last_update` (given the invariant `tokens ≤ burst_limit`). -/
theorem claim_C6_amended (s : RateLimiter) (h : s.tokens ≤ s.burst_limit) :
    getWaitTime s = (acquire s s.last_update).1 := by
  have hmin : min s.burst_limit
      (s.tokens + (s.last_update - s.last_update) * s.max_requests_per_second)
      = s.tokens := by
    simpa using h
  unfold getWaitTime acquire
  rw [hmin]
  by_cases h2 : 1 ≤ s.tokens
  · rw [if_pos h2, if_pos h2]
  · rw [if_neg h2, if_neg h2]

/-- Concrete instance of the amended claim C6 at a half-full limiter. -/
theorem claim_C6_witness :
    getWaitTime ⟨3, 10, 1/2, 0⟩ = (acquire ⟨3, 10, 1/2, 0⟩ 0).1 :=
  claim_C6_amended ⟨3, 10, 1/2, 0⟩ (by norm_num)

/-- Claim C8 counterexample: `success_rate` is a percentage, not the plain
quotient: at `total_pages = 2`, `successful_pages = 1` it returns 50, which
differs from `successful_pages / total_pages = 1/2`. -/
theorem claim_C8_counterexample :
    successRate { initSyncResult with total_pages := 2, successful_pages := 1 } = 50 ∧
    successRate { initSyncResult with total_pages := 2, successful_pages := 1 } ≠
      (1 : ℚ) / 2 := by
  norm_num [successRate, initSyncResult]

/-- Claim C8 (amended): for positive `total_pages`, `success_rate` equals
`successful_pages / total_pages` times 100. -/
theorem claim_C8_amended (r : SyncResult) (h : 0 < r.total_pages) :
    successRate r = (r.successful_pages : ℚ) / (r.total_pages : ℚ) * 100 := by
  unfold successRate
  rw [if_neg (Nat.pos_iff_ne_zero.mp h)]

/-- Concrete instance of the amended claim C8. -/
theorem claim_C8_witness :
    successRate { initSyncResult with total_pages := 2, successful_pages := 1 } =
      (({ initSyncResult with total_pages := 2, successful_pages := 1 } : SyncResult).successful_pages : ℚ) /
      (({ initSyncResult with total_pages := 2, successful_pages := 1 } : SyncResult).total_pages : ℚ) * 100 :=
  claim_C8_amended _ (by norm_num [initSyncResult])

/-- Claim C10: the sanitizer is expected to remove every dangerous character,
but the source's replacement table maps the double quote to itself, so a
title containing a double quote keeps it — and the resulting filename is then
rejected by the module's own `_is_safe_filename` check. -/
theorem claim_C10 :
    sanitizeFilename "ab\"cd".toList 100 = "ab\"cd".toList ∧
    '"' ∈ getSafeFilename "ab\"cd".toList ∧
    isSafeFilename (getSafeFilename "ab\"cd".toList) = false := by
  decide

/-- Claim C4: `process_pages_async` returns exactly one `ProcessingResult`
per input item, in a total function (no processor exception escapes the
batch): an item whose processor raises yields a failure record carrying the
error message, the others yield success records, and every item is
processed. -/
theorem claim_C4 {α β : Type} (proc : PPage β → Except String α)
    (pages : List (PPage β)) :
    (processPagesAsync proc pages).length = pages.length ∧
    List.Forall₂ (resultMatches proc) pages (processPagesAsync proc pages) := by
  refine ⟨by simp [processPagesAsync], ?_⟩
  induction pages with
  | nil => simp [processPagesAsync]
  | cons p rest ih =>
    simp only [processPagesAsync, List.map_cons]
    refine List.Forall₂.cons ?_ ih
    unfold resultMatches processSinglePage
    cases h : proc p <;> simp [h]

/-- Projections of `_update_stats` on the three counters: the branch on
`total_processed > 0` only recomputes the average. -/
theorem updatePStats_counts {α : Type} (st : PStats)
    (rs : List (ProcessingResult α)) (t : ℚ) :
    (updatePStats st rs t).total_processed = st.total_processed + rs.length ∧
    (updatePStats st rs t).successful = st.successful + rs.countP (·.success) ∧
    (updatePStats st rs t).failed
      = st.failed + ((rs.length : Int) - rs.countP (·.success)) := by
  unfold updatePStats
  dsimp only
  refine ⟨?_, ?_, ?_⟩ <;> split <;> rfl

/-- `_update_stats` preserves the statistics invariant. -/
theorem updatePStats_inv {α : Type} (st : PStats)
    (rs : List (ProcessingResult α)) (t : ℚ) (h : statsInv st) :
    statsInv (updatePStats st rs t) := by
  obtain ⟨h1, h2, h3, h4⟩ := h
  obtain ⟨e1, e2, e3⟩ := updatePStats_counts st rs t
  have hc : (rs.countP (·.success) : Int) ≤ (rs.length : Int) := by
    exact_mod_cast List.countP_le_length _
  have hc0 : (0 : Int) ≤ (rs.countP (·.success) : Int) := by positivity
  refine ⟨?_, ?_, ?_, ?_⟩
  · rw [e1, e2, e3]; omega
  · rw [e2]; omega
  · rw [e3]; omega
  · rw [e1]; omega

/-- Claim C9: the aggregate statistics satisfy
`successful + failed = total_processed` with all three counters non-negative
at initialization, after `reset_stats`, and after each of the three
processing drivers, whenever they held before. -/
theorem claim_C9 :
    statsInv initPStats ∧
    (∀ {α β : Type} (st : PStats) (proc : PPage β → Except String α)
       (pages : List (PPage β)) (elapsed : ℚ), statsInv st →
       statsInv (processPagesAsyncRun st proc pages elapsed).2) ∧
    (∀ {α β : Type} (st : PStats) (proc : PPage β → Except String α)
       (pages : List (PPage β)) (elapsed : ℚ), statsInv st →
       statsInv (processPagesThreadedRun st proc pages elapsed).2) ∧
    (∀ {α β : Type} (st : PStats) (proc : List (PPage β) → Except String (List α))
       (batch_size : Nat) (pages : List (PPage β)) (elapsed : ℚ), statsInv st →
       statsInv (processPagesBatchRun st proc batch_size pages elapsed).2) ∧
    (∀ st : PStats, statsInv (resetPStats st)) := by
  refine ⟨⟨rfl, le_refl _, le_refl _, le_refl _⟩, ?_, ?_, ?_,
          fun _ => ⟨rfl, le_refl _, le_refl _, le_refl _⟩⟩
  · intro α β st proc pages elapsed h
    exact updatePStats_inv _ _ _ h
  · intro α β st proc pages elapsed h
    exact updatePStats_inv _ _ _ h
  · intro α β st proc batch_size pages elapsed h
    exact updatePStats_inv _ _ _ h

/-- Concrete instance of claim C9: one successful page processed from the
freshly initialized statistics. -/
theorem claim_C9_witness :
    statsInv (processPagesAsyncRun initPStats (fun p => Except.ok p.data)
      ([⟨some "a", 0⟩] : List (PPage Nat)) 1).2 :=
  claim_C9.2.1 initPStats (fun p => Except.ok p.data) [⟨some "a", 0⟩] 1 claim_C9.1

/-- With fuel at least `n`, the digit loop produces exactly the base-10
digits of `n`. -/
theorem natDecAux_spec : ∀ (fuel n : Nat), n ≤ fuel →
    natDecAux fuel n = (Nat.digits 10 n).map decDigitChar := by
  intro fuel
  induction fuel with
  | zero =>
    intro n hn
    have : n = 0 := Nat.le_zero.mp hn
    subst this
    simp [natDecAux]
  | succ fuel ih =>
    intro n hn
    match n with
    | 0 => simp [natDecAux]
    | m + 1 =>
      have hdiv : (m + 1) / 10 < m + 1 := Nat.div_lt_self (Nat.succ_pos m) (by norm_num)
      rw [Nat.digits_def' (by norm_num : (1 : ℕ) < 10) (Nat.succ_pos m)]
      simp only [natDecAux, List.map_cons]
      congr 1
      exact ih ((m + 1) / 10) (by omega)

/-- `natDec` in terms of `Nat.digits`. -/
theorem natDec_eq_digits (n : Nat) :
    natDec n = if n = 0 then ['0'] else ((Nat.digits 10 n).map decDigitChar).reverse := by
  by_cases h : n = 0
  · simp [natDec, h]
  · simp [natDec, h, natDecAux_spec n n le_rfl]

/-- The decimal digit characters of two digits below 10 agree only when the
digits agree. -/
theorem decDigitChar_injOn {a b : Nat} (ha : a < 10) (hb : b < 10)
    (h : decDigitChar a = decDigitChar b) : a = b := by
  have key : ∀ x y : Fin 10, decDigitChar x = decDigitChar y → x = y := by decide
  exact congrArg Fin.val (key ⟨a, ha⟩ ⟨b, hb⟩ h)

/-- Mapping `decDigitChar` over digit lists (entries below 10) is injective. -/
theorem mapDecDigits_inj : ∀ (l1 l2 : List Nat), (∀ x ∈ l1, x < 10) →
    (∀ x ∈ l2, x < 10) → l1.map decDigitChar = l2.map decDigitChar → l1 = l2 := by
  intro l1
  induction l1 with
  | nil => intro l2 _ _ h; cases l2 <;> simp_all
  | cons a rest ih =>
    intro l2 h1 h2 h
    cases l2 with
    | nil => simp at h
    | cons b rest2 =>
      simp only [List.map_cons, List.cons.injEq] at h
      have ha : a = b := decDigitChar_injOn (h1 a (by simp)) (h2 b (by simp)) h.1
      have hr : rest = rest2 :=
        ih rest2 (fun x hx => h1 x (by simp [hx])) (fun x hx => h2 x (by simp [hx])) h.2
      rw [ha, hr]

/-- Python decimal rendering is injective. -/
theorem natDec_inj : ∀ {m n : Nat}, natDec m = natDec n → m = n := by
  have zero_case : ∀ n : Nat, n ≠ 0 → natDec n ≠ natDec 0 := by
    intro n hn h
    rw [natDec_eq_digits, natDec_eq_digits] at h
    simp only [hn, if_false, if_pos rfl] at h
    have h2 : (Nat.digits 10 n).map decDigitChar = ['0'] := by
      have := congrArg List.reverse h
      simpa using this
    match hd : Nat.digits 10 n with
    | [] => rw [hd] at h2; simp at h2
    | [d] =>
      have hchar : decDigitChar d = '0' := by
        rw [hd] at h2
        simpa using h2
      have hd10 : d < 10 :=
        Nat.digits_lt_base (by norm_num) (by rw [hd]; exact List.mem_singleton_self d)
      have hzero : decDigitChar 0 = '0' := by decide
      have hd0 : d = 0 := decDigitChar_injOn hd10 (by norm_num) (hchar.trans hzero.symm)
      have : n = 0 := by
        have := Nat.ofDigits_digits 10 n
        rw [hd, hd0] at this
        simpa [Nat.ofDigits] using this.symm
      exact hn this
    | d1 :: d2 :: rest =>
      rw [hd] at h2
      have := congrArg List.length h2
      simp at this
  intro m n h
  by_cases hm : m = 0 <;> by_cases hn : n = 0
  · rw [hm, hn]
  · exact absurd (h.symm.trans (hm ▸ rfl)) (zero_case n hn)
  · exact absurd (h.trans (hn ▸ rfl)) (zero_case m hm)
  · rw [natDec_eq_digits, natDec_eq_digits] at h
    simp only [hm, hn, if_false] at h
    have hmap : (Nat.digits 10 m).map decDigitChar = (Nat.digits 10 n).map decDigitChar :=
      List.reverse_injective h
    have hdig : Nat.digits 10 m = Nat.digits 10 n :=
      mapDecDigits_inj _ _ (fun x hx => Nat.digits_lt_base (by norm_num) hx)
        (fun x hx => Nat.digits_lt_base (by norm_num) hx) hmap
    have := congrArg (Nat.ofDigits 10) hdig
    rwa [Nat.ofDigits_digits, Nat.ofDigits_digits] at this

/-- For a fixed stem and suffix, distinct counters give distinct candidate
names. -/
theorem numberedName_inj (st su : Filename) :
    Function.Injective (numberedName st su) := by
  intro a b hab
  unfold numberedName at hab
  have h1 := List.append_cancel_left hab
  have h2 := List.tail_eq_of_cons_eq h1
  exact natDec_inj (List.append_cancel_right h2)

/-- The candidate-search loop returns the candidate of the least fresh
counter, provided a fresh counter exists within the fuel window. -/
theorem searchFrom_least (used : List Filename) (st su : Filename) :
    ∀ (fuel c : Nat),
      (∃ k, c ≤ k ∧ k < c + fuel ∧ numberedName st su k ∉ used) →
      ∃ k, c ≤ k ∧ searchFrom used st su fuel c = numberedName st su k ∧
        numberedName st su k ∉ used ∧
        ∀ j, c ≤ j → j < k → numberedName st su j ∈ used := by
  intro fuel
  induction fuel with
  | zero =>
    rintro c ⟨k, hk1, hk2, _⟩
    omega
  | succ fuel ih =>
    rintro c ⟨k, hk1, hk2, hk3⟩
    by_cases hc : numberedName st su c ∈ used
    · have hkc : k ≠ c := fun h => hk3 (h ▸ hc)
      obtain ⟨j, hj1, hj2, hj3, hj4⟩ :=
        ih (c + 1) ⟨k, by omega, by omega, hk3⟩
      refine ⟨j, by omega, ?_, hj3, ?_⟩
      · simpa [searchFrom, hc] using hj2
      · intro i hi1 hi2
        by_cases hic : i = c
        · exact hic ▸ hc
        · exact hj4 i (by omega) hi2
    · exact ⟨c, le_rfl, by simp [searchFrom, hc], hc, fun j h1 h2 => by omega⟩

/-- Pigeonhole: among `used.length + 1` consecutive counters at least one
candidate name is unused. -/
theorem exists_fresh_numbered (used : List Filename) (st su : Filename) (c : Nat) :
    ∃ k, c ≤ k ∧ k < c + (used.length + 1) ∧ numberedName st su k ∉ used := by
  by_contra hcon
  push_neg at hcon
  have hsub : (List.range (used.length + 1)).map (fun i => numberedName st su (c + i))
      ⊆ used := by
    intro x hx
    simp only [List.mem_map, List.mem_range] at hx
    obtain ⟨i, hi, rfl⟩ := hx
    exact hcon (c + i) (by omega) (by omega)
  have hinj : Function.Injective (fun i => numberedName st su (c + i)) := by
    intro a b hab
    have := numberedName_inj st su hab
    omega
  have hnodup := (List.nodup_range (used.length + 1)).map hinj
  have hlen := (List.subperm_of_subset hnodup hsub).length_le
  simp at hlen

/-- `_get_unique_filename` never returns a name that is already used. -/
theorem getUniqueFilename_notMem (f : Filename) (used : List Filename) :
    getUniqueFilename f used ∉ used := by
  unfold getUniqueFilename
  by_cases h : f ∉ used
  · rwa [if_pos h]
  · rw [if_neg h]
    obtain ⟨k, _, heq, hfresh, _⟩ :=
      searchFrom_least used (fileStem f) (fileSuffix f) (used.length + 1) 1
        (exists_fresh_numbered used (fileStem f) (fileSuffix f) 1)
    rw [heq]
    exact hfresh

/-- Conflict resolution preserves the number of documents. -/
theorem resolveAux_length : ∀ (files : List MdFile) (used : List Filename),
    (resolveAux files used).length = files.length := by
  intro files
  induction files with
  | nil => intro used; rfl
  | cons f rest ih => intro used; simp [resolveAux, ih]

/-- No name assigned by the resolution loop belongs to the incoming used
set. -/
theorem resolveAux_notMem : ∀ (files : List MdFile) (used : List Filename)
    (g : Filename), g ∈ (resolveAux files used).map (·.filename) → g ∉ used := by
  intro files
  induction files with
  | nil => intro used g hg; simp [resolveAux] at hg
  | cons f rest ih =>
    intro used g hg
    simp only [resolveAux, List.map_cons, List.mem_cons] at hg
    cases hg with
    | inl h => exact h ▸ getUniqueFilename_notMem f.filename used
    | inr h =>
      intro hu
      exact ih (getUniqueFilename f.filename used :: used) g h
        (List.mem_cons_of_mem _ hu)

/-- The names assigned by the resolution loop are pairwise distinct. -/
theorem resolveAux_nodup : ∀ (files : List MdFile) (used : List Filename),
    ((resolveAux files used).map (·.filename)).Nodup := by
  intro files
  induction files with
  | nil => intro used; simp [resolveAux]
  | cons f rest ih =>
    intro used
    simp only [resolveAux, List.map_cons, List.nodup_cons]
    refine ⟨?_, ih _⟩
    intro hmem
    exact resolveAux_notMem rest (getUniqueFilename f.filename used :: used) _ hmem
      (List.mem_cons_self _ _)

/-- Claim C3 counterexample: `resolve_filename_conflicts` compares names
case-sensitively (`used_filenames` stores exact strings), so a batch
containing both `Notes.md` and `notes.md` is returned unchanged and its
output names are equal up to case. -/
theorem claim_C3_counterexample :
    (resolveFilenameConflicts
        [⟨"Notes.md".toList, []⟩, ⟨"notes.md".toList, []⟩]).map (·.filename)
      = ["Notes.md".toList, "notes.md".toList] ∧
    ¬ ((resolveFilenameConflicts
        [⟨"Notes.md".toList, []⟩, ⟨"notes.md".toList, []⟩]).map
          (fun f => lowerName f.filename)).Nodup := by
  constructor
  · decide
  · decide

/-- Claim C3 (amended): `resolve_filename_conflicts` preserves the length of
the batch and its output filenames are pairwise distinct as exact strings
(case-sensitively); distinctness up to case folding does not hold. -/
theorem claim_C3_amended (files : List MdFile) :
    (resolveFilenameConflicts files).length = files.length ∧
    ((resolveFilenameConflicts files).map (·.filename)).Nodup :=
  ⟨resolveAux_length files [], resolveAux_nodup files []⟩

/-- Claim C7 counterexample: a document whose filename is a first occurrence
in the batch can still be renamed, namely when its name collides with a
generated name: in the batch `Notes.md, Notes.md, Notes_1.md`, the third
document's name occurs for the first time yet it is renamed to
`Notes_1_1.md`. -/
theorem claim_C7_counterexample :
    (resolveFilenameConflicts
        [⟨"Notes.md".toList, []⟩, ⟨"Notes.md".toList, []⟩,
         ⟨"Notes_1.md".toList, []⟩]).map (·.filename)
      = ["Notes.md".toList, "Notes_1.md".toList, "Notes_1_1.md".toList] ∧
    "Notes_1.md".toList ≠ "Notes.md".toList := by
  constructor
  · decide
  · decide

/-- Claim C7 (amended): a name that differs from every name already assigned
(original or generated) is kept unchanged — in particular a document whose
filename collides only with a pre-existing file on disk is not renamed, since
the resolution consults only the names assigned within the batch; a name
equal to an already-assigned name receives the suffix `_k` before the
extension for the least counter `k ≥ 1` whose candidate is unassigned; and
two documents both named `Notes.md` resolve to `Notes.md` and `Notes_1.md`. -/
theorem claim_C7_amended :
    ((resolveFilenameConflicts [⟨"Notes.md".toList, []⟩, ⟨"Notes.md".toList, []⟩]).map
        (·.filename) = ["Notes.md".toList, "Notes_1.md".toList]) ∧
    (∀ (f : Filename) (used : List Filename), f ∉ used →
       getUniqueFilename f used = f) ∧
    (∀ (f : Filename) (used : List Filename), f ∈ used →
       ∃ k, 1 ≤ k ∧
         getUniqueFilename f used = numberedName (fileStem f) (fileSuffix f) k ∧
         numberedName (fileStem f) (fileSuffix f) k ∉ used ∧
         ∀ j, 1 ≤ j → j < k → numberedName (fileStem f) (fileSuffix f) j ∈ used) := by
  refine ⟨by decide, ?_, ?_⟩
  · intro f used h
    unfold getUniqueFilename
    rw [if_pos h]
  · intro f used h
    obtain ⟨k, hk1, heq, hfresh, hleast⟩ :=
      searchFrom_least used (fileStem f) (fileSuffix f) (used.length + 1) 1
        (exists_fresh_numbered used (fileStem f) (fileSuffix f) 1)
    refine ⟨k, hk1, ?_, hfresh, hleast⟩
    unfold getUniqueFilename
    rw [if_neg (by simpa using h)]
    exact heq

/-- Concrete instance of the amended claim C7: the second `Notes.md` receives
the least free counter. -/
theorem claim_C7_witness :
    ∃ k, 1 ≤ k ∧
      getUniqueFilename "Notes.md".toList ["Notes.md".toList]
        = numberedName (fileStem "Notes.md".toList) (fileSuffix "Notes.md".toList) k ∧
      numberedName (fileStem "Notes.md".toList) (fileSuffix "Notes.md".toList) k
        ∉ ["Notes.md".toList] ∧
      ∀ j, 1 ≤ j → j < k →
        numberedName (fileStem "Notes.md".toList) (fileSuffix "Notes.md".toList) j
          ∈ ["Notes.md".toList] :=
  claim_C7_amended.2.2 "Notes.md".toList ["Notes.md".toList] (by decide)

/-- Field effects of `_process_page_batch`: one conversion result per
successful page, one recorded error per raised conversion, and the page
counters and completion flag untouched. -/
theorem processPageBatch_spec (convert : NPage → Except String ConvResult) :
    ∀ (batch : List NPage) (r : SyncResult),
      (processPageBatch convert batch r).2.length + batch.countP (convFails convert)
        = batch.length ∧
      (processPageBatch convert batch r).1.errors.length
        = r.errors.length + batch.countP (convFails convert) ∧
      (processPageBatch convert batch r).1.total_pages = r.total_pages ∧
      (processPageBatch convert batch r).1.successful_pages = r.successful_pages ∧
      (processPageBatch convert batch r).1.failed_pages = r.failed_pages ∧
      (processPageBatch convert batch r).1.completed = r.completed := by
  intro batch
  induction batch with
  | nil => intro r; simp [processPageBatch]
  | cons p rest ih =>
    intro r
    cases hc : convert p with
    | ok c =>
      have hcf : convFails convert p = false := by simp [convFails, hc]
      have hstep : processPageBatch convert (p :: rest) r
          = ((processPageBatch convert rest
                (addWarnings r (c.warnings.map (fun w => p.title ++ ": " ++ w)))).1,
             c :: (processPageBatch convert rest
                (addWarnings r (c.warnings.map (fun w => p.title ++ ": " ++ w)))).2) := by
        simp [processPageBatch, hc]
      have hcount : List.countP (convFails convert) (p :: rest)
          = List.countP (convFails convert) rest := by
        simp [List.countP_cons, hcf]
      obtain ⟨i1, i2, i3, i4, i5, i6⟩ :=
        ih (addWarnings r (c.warnings.map (fun w => p.title ++ ": " ++ w)))
      have herr : (addWarnings r (c.warnings.map (fun w => p.title ++ ": " ++ w))).errors
          = r.errors := rfl
      refine ⟨?_, ?_, ?_, ?_, ?_, ?_⟩
      · rw [hstep, hcount]
        simp only [List.length_cons]
        omega
      · rw [hstep, hcount]
        rw [i2, herr]
      · rw [hstep]; exact i3
      · rw [hstep]; exact i4
      · rw [hstep]; exact i5
      · rw [hstep]; exact i6
    | error e =>
      have hcf : convFails convert p = true := by simp [convFails, hc]
      have hstep : processPageBatch convert (p :: rest) r
          = processPageBatch convert rest
              (addError r ("ページ処理エラー (" ++ p.title ++ "): " ++ e)) := by
        simp [processPageBatch, hc]
      have hcount : List.countP (convFails convert) (p :: rest)
          = List.countP (convFails convert) rest + 1 := by
        simp [List.countP_cons, hcf]
      obtain ⟨i1, i2, i3, i4, i5, i6⟩ :=
        ih (addError r ("ページ処理エラー (" ++ p.title ++ "): " ++ e))
      have herr : (addError r ("ページ処理エラー (" ++ p.title ++ "): " ++ e)).errors.length
          = r.errors.length + 1 := by
        simp [addError]
      refine ⟨?_, ?_, ?_, ?_, ?_, ?_⟩
      · rw [hstep, hcount]
        simp only [List.length_cons]
        omega
      · rw [hstep, hcount, i2, herr]
        omega
      · rw [hstep]; exact i3
      · rw [hstep]; exact i4
      · rw [hstep]; exact i5
      · rw [hstep]; exact i6

/-- Field effects of the batch loop of `sync_all_pages`, in terms of the
concatenation of the processed batches. -/
theorem foldBatches_spec (convert : NPage → Except String ConvResult) :
    ∀ (batches : List (List NPage)) (r : SyncResult) (acc : List ConvResult),
      (batches.foldl (syncBatchStep convert) (r, acc)).2.length
          + batches.flatten.countP (convFails convert)
        = acc.length + batches.flatten.length ∧
      (batches.foldl (syncBatchStep convert) (r, acc)).1.errors.length
        = r.errors.length + batches.flatten.countP (convFails convert) ∧
      (batches.foldl (syncBatchStep convert) (r, acc)).1.total_pages = r.total_pages ∧
      (batches.foldl (syncBatchStep convert) (r, acc)).1.successful_pages
        = r.successful_pages ∧
      (batches.foldl (syncBatchStep convert) (r, acc)).1.failed_pages = r.failed_pages ∧
      (batches.foldl (syncBatchStep convert) (r, acc)).1.completed = r.completed := by
  intro batches
  induction batches with
  | nil => intro r acc; simp
  | cons b rest ih =>
    intro r acc
    obtain ⟨p1, p2, p3, p4, p5, p6⟩ := processPageBatch_spec convert b r
    obtain ⟨f1, f2, f3, f4, f5, f6⟩ :=
      ih (processPageBatch convert b r).1 (acc ++ (processPageBatch convert b r).2)
    simp only [List.foldl_cons, syncBatchStep, List.flatten_cons, List.countP_append,
      List.length_append] at *
    refine ⟨by omega, by omega, f3.trans p3, f4.trans p4, f5.trans p5, f6.trans p6⟩

/-- With positive batch size and enough fuel, slicing and re-concatenating
gives back the original list. -/
theorem chunkListAux_flatten {α : Type} (bs : Nat) (hbs : 0 < bs) :
    ∀ (fuel : Nat) (xs : List α), xs.length ≤ fuel →
      (chunkListAux bs fuel xs).flatten = xs := by
  intro fuel
  induction fuel with
  | zero =>
    intro xs hxs
    have : xs = [] := List.length_eq_zero.mp (Nat.le_zero.mp hxs)
    subst this
    rfl
  | succ fuel ih =>
    intro xs hxs
    cases xs with
    | nil => rfl
    | cons x rest =>
      have hlen : (List.drop bs (x :: rest)).length ≤ fuel := by
        rw [List.length_drop]
        simp only [List.length_cons] at hxs ⊢
        omega
      calc (chunkListAux bs (fuel + 1) (x :: rest)).flatten
          = List.take bs (x :: rest) ++ (chunkListAux bs fuel (List.drop bs (x :: rest))).flatten := by
            simp [chunkListAux]
        _ = List.take bs (x :: rest) ++ List.drop bs (x :: rest) := by rw [ih _ hlen]
        _ = x :: rest := List.take_append_drop _ _

/-- Slicing with positive batch size loses no element. -/
theorem chunkList_flatten {α : Type} (bs : Nat) (hbs : 0 < bs) (xs : List α) :
    (chunkList bs xs).flatten = xs :=
  chunkListAux_flatten bs hbs xs.length xs le_rfl

/-- When every write succeeds, `safe_batch_write` reports one successful
write per conversion result and no failed write (conflict resolution
preserves the batch size). -/
theorem safeBatchWrite_allOk (writeOk : Filename → Bool)
    (hw : ∀ f, writeOk f = true) (convs : List ConvResult)
    (existing : List Filename) (resolve_conflicts : Bool) :
    (safeBatchWrite writeOk convs existing resolve_conflicts).successful_writes
      = convs.length ∧
    (safeBatchWrite writeOk convs existing resolve_conflicts).failed_writes = 0 := by
  unfold safeBatchWrite
  dsimp only
  have hall : ∀ (l : List MdFile), (l.filter (fun f => writeOk f.filename)).length = l.length := by
    intro l
    rw [List.filter_eq_self.mpr]
    intro a _
    exact hw a.filename
  have hnone : ∀ (l : List MdFile), (l.filter (fun f => !(writeOk f.filename))).length = 0 := by
    intro l
    rw [List.length_eq_zero, List.filter_eq_nil_iff]
    intro a _
    simp [hw a.filename]
  split
  · constructor
    · rw [hall]
      rw [show (resolveFilenameConflicts (convs.map (·.file))).length
          = (convs.map (·.file)).length from resolveAux_length _ []]
      simp
    · rw [hnone]
  · constructor
    · rw [hall]; simp
    · rw [hnone]

/-- The batch-processing and writing phase, started from a result with no
errors and zero counters, when every write succeeds: the total is untouched,
the success counter ends at the number of non-failing conversions, the
failure counter ends at zero, exactly one error is recorded per failing
conversion, and the run is completed. -/
theorem syncRunBody_spec (convert : NPage → Except String ConvResult)
    (writeOk : Filename → Bool) (batch_size : Nat) (existing : List Filename)
    (pages : List NPage) (r2 : SyncResult)
    (hw : ∀ f, writeOk f = true) (hbs : 0 < batch_size)
    (herr : r2.errors = []) (hsucc : r2.successful_pages = 0)
    (hfail : r2.failed_pages = 0) :
    (syncRunBody convert writeOk batch_size existing pages r2).total_pages
      = r2.total_pages ∧
    (syncRunBody convert writeOk batch_size existing pages r2).successful_pages
      = pages.length - pages.countP (convFails convert) ∧
    (syncRunBody convert writeOk batch_size existing pages r2).failed_pages = 0 ∧
    (syncRunBody convert writeOk batch_size existing pages r2).errors.length
      = pages.countP (convFails convert) ∧
    (syncRunBody convert writeOk batch_size existing pages r2).completed = true := by
  obtain ⟨f1, f2, f3, f4, f5, f6⟩ :=
    foldBatches_spec convert (chunkList batch_size pages) r2 []
  rw [chunkList_flatten batch_size hbs pages] at f1 f2
  simp only [List.length_nil, Nat.zero_add] at f1
  unfold syncRunBody
  dsimp only
  by_cases hcv : ((chunkList batch_size pages).foldl (syncBatchStep convert)
      (r2, [])).2.length ≠ 0
  · rw [if_pos hcv]
    obtain ⟨s1, s2⟩ := safeBatchWrite_allOk writeOk hw
      ((chunkList batch_size pages).foldl (syncBatchStep convert) (r2, [])).2
      existing true
    split
    · refine ⟨?_, ?_, ?_, ?_, ?_⟩
      · simp only [completeSync, addWarning]
        exact f3
      · simp only [completeSync, addWarning]
        rw [s1]
        omega
      · simp only [completeSync, addWarning]
        exact s2
      · simp only [completeSync, addWarning]
        rw [f2, herr]
        simp
      · simp [completeSync, addWarning]
    · refine ⟨?_, ?_, ?_, ?_, ?_⟩
      · simp only [completeSync]
        exact f3
      · simp only [completeSync]
        rw [s1]
        omega
      · simp only [completeSync]
        exact s2
      · simp only [completeSync]
        rw [f2, herr]
        simp
      · simp [completeSync]
  · rw [if_neg hcv]
    push_neg at hcv
    refine ⟨?_, ?_, ?_, ?_, ?_⟩
    · simp only [completeSync]
      exact f3
    · simp only [completeSync]
      rw [f4, hsucc]
      omega
    · simp only [completeSync]
      rw [f5]
      exact hfail
    · simp only [completeSync]
      rw [f2, herr]
      simp
    · simp [completeSync]

/-- Claim C1 counterexample: a run over two fetched pages in which exactly
one conversion raises and the remaining write succeeds ends with
`failed_pages = 0`, not `failed_pages = 1` as the claim states —
`sync_all_pages` takes `failed_pages` from the write report, and failed
conversions never reach the writer. -/
theorem claim_C1_counterexample :
    (syncAllPages ⟨true, [], []⟩ [⟨"p1", "t1"⟩, ⟨"p2", "t2"⟩]
        (fun p => if p.id = "p2" then Except.error "boom"
                  else Except.ok ⟨⟨"A.md".toList, []⟩, []⟩)
        (fun _ => true) 10 []).total_pages = 2 ∧
    (syncAllPages ⟨true, [], []⟩ [⟨"p1", "t1"⟩, ⟨"p2", "t2"⟩]
        (fun p => if p.id = "p2" then Except.error "boom"
                  else Except.ok ⟨⟨"A.md".toList, []⟩, []⟩)
        (fun _ => true) 10 []).successful_pages = 1 ∧
    (syncAllPages ⟨true, [], []⟩ [⟨"p1", "t1"⟩, ⟨"p2", "t2"⟩]
        (fun p => if p.id = "p2" then Except.error "boom"
                  else Except.ok ⟨⟨"A.md".toList, []⟩, []⟩)
        (fun _ => true) 10 []).errors.length = 1 ∧
    (syncAllPages ⟨true, [], []⟩ [⟨"p1", "t1"⟩, ⟨"p2", "t2"⟩]
        (fun p => if p.id = "p2" then Except.error "boom"
                  else Except.ok ⟨⟨"A.md".toList, []⟩, []⟩)
        (fun _ => true) 10 []).failed_pages ≠ 1 := by
  decide

/-- Claim C1 (amended): for a validated run over `N` fetched pages with
positive batch size in which exactly `K` page conversions raise and every
remaining write succeeds, the returned `SyncResult` has `total_pages = N`,
`successful_pages = N - K`, `failed_pages = 0` (the counter reflects failed
writes only, and failed conversions never reach the writer), at least `K`
recorded errors, and the run still completes (`complete()` is called). -/
theorem claim_C1_amended (validation : Validation) (pages : List NPage)
    (convert : NPage → Except String ConvResult) (writeOk : Filename → Bool)
    (batch_size : Nat) (existing : List Filename)
    (hv : validation.is_valid = true) (hw : ∀ f, writeOk f = true)
    (hbs : 0 < batch_size) :
    (syncAllPages validation pages convert writeOk batch_size existing).total_pages
      = pages.length ∧
    (syncAllPages validation pages convert writeOk batch_size existing).successful_pages
      = pages.length - pages.countP (convFails convert) ∧
    (syncAllPages validation pages convert writeOk batch_size existing).failed_pages
      = 0 ∧
    pages.countP (convFails convert)
      ≤ (syncAllPages validation pages convert writeOk batch_size existing).errors.length ∧
    (syncAllPages validation pages convert writeOk batch_size existing).completed
      = true := by
  obtain ⟨g1, g2, g3, g4, g5⟩ :=
    syncRunBody_spec convert writeOk batch_size existing pages
      { addWarnings initSyncResult validation.warnings with total_pages := pages.length }
      hw hbs rfl rfl rfl
  unfold syncAllPages
  rw [hv, if_neg (by decide : ¬ (true = false))]
  by_cases hp : pages.length = 0
  · rw [if_pos hp]
    have hnil : pages = [] := List.length_eq_zero.mp hp
    subst hnil
    simp [completeSync, addWarning, addWarnings, initSyncResult]
  · rw [if_neg hp]
    exact ⟨g1, g2, g3, le_of_eq g4.symm, g5⟩

/-- Concrete instance of the amended claim C1: three pages with one failing
conversion, batch size two, all writes succeeding. -/
theorem claim_C1_witness :
    (syncAllPages ⟨true, [], []⟩ [⟨"q1", "s1"⟩, ⟨"q2", "s2"⟩, ⟨"q3", "s3"⟩]
        (fun p => if p.id = "q2" then Except.error "x"
                  else Except.ok ⟨⟨"B.md".toList, []⟩, []⟩)
        (fun _ => true) 2 []).total_pages
      = ([⟨"q1", "s1"⟩, ⟨"q2", "s2"⟩, ⟨"q3", "s3"⟩] : List NPage).length ∧
    (syncAllPages ⟨true, [], []⟩ [⟨"q1", "s1"⟩, ⟨"q2", "s2"⟩, ⟨"q3", "s3"⟩]
        (fun p => if p.id = "q2" then Except.error "x"
                  else Except.ok ⟨⟨"B.md".toList, []⟩, []⟩)
        (fun _ => true) 2 []).successful_pages
      = ([⟨"q1", "s1"⟩, ⟨"q2", "s2"⟩, ⟨"q3", "s3"⟩] : List NPage).length
        - ([⟨"q1", "s1"⟩, ⟨"q2", "s2"⟩, ⟨"q3", "s3"⟩] : List NPage).countP
            (convFails (fun p => if p.id = "q2" then Except.error "x"
                                 else Except.ok ⟨⟨"B.md".toList, []⟩, []⟩)) ∧
    (syncAllPages ⟨true, [], []⟩ [⟨"q1", "s1"⟩, ⟨"q2", "s2"⟩, ⟨"q3", "s3"⟩]
        (fun p => if p.id = "q2" then Except.error "x"
                  else Except.ok ⟨⟨"B.md".toList, []⟩, []⟩)
        (fun _ => true) 2 []).failed_pages = 0 ∧
    ([⟨"q1", "s1"⟩, ⟨"q2", "s2"⟩, ⟨"q3", "s3"⟩] : List NPage).countP
        (convFails (fun p => if p.id = "q2" then Except.error "x"
                             else Except.ok ⟨⟨"B.md".toList, []⟩, []⟩))
      ≤ (syncAllPages ⟨true, [], []⟩ [⟨"q1", "s1"⟩, ⟨"q2", "s2"⟩, ⟨"q3", "s3"⟩]
          (fun p => if p.id = "q2" then Except.error "x"
                    else Except.ok ⟨⟨"B.md".toList, []⟩, []⟩)
          (fun _ => true) 2 []).errors.length ∧
    (syncAllPages ⟨true, [], []⟩ [⟨"q1", "s1"⟩, ⟨"q2", "s2"⟩, ⟨"q3", "s3"⟩]
        (fun p => if p.id = "q2" then Except.error "x"
                  else Except.ok ⟨⟨"B.md".toList, []⟩, []⟩)
        (fun _ => true) 2 []).completed = true :=
  claim_C1_amended ⟨true, [], []⟩ [⟨"q1", "s1"⟩, ⟨"q2", "s2"⟩, ⟨"q3", "s3"⟩]
    (fun p => if p.id = "q2" then Except.error "x"
              else Except.ok ⟨⟨"B.md".toList, []⟩, []⟩)
    (fun _ => true) 2 [] rfl (fun _ => rfl) (by norm_num)
